import Mathlib

/-!
Shallow embedding of the pyjvm class-file decoder (src/main.py).

The decoder reads a JVM class file front to back: magic, version pair,
constant pool, access flags, class linkage, interfaces, fields, methods
and attributes.  Byte input is modelled as a list of naturals together
with a read position; each primitive either returns the requested bytes
and the advanced cursor or fails.  Python exceptions are modelled by the
`Except` monad with one error constructor per distinct failure source of
the Python code:

* a short `file.read` followed by `struct.unpack_from` raises
  `struct.error`, modelled as `JVMError.TruncatedInput`;
* `validate_class_file_magic` raises on a magic mismatch, modelled as
  `JVMError.NotAClassFile`;
* `bytes.decode` on invalid UTF-8 raises `UnicodeDecodeError`, modelled
  as `JVMError.MalformedConstant`;
* a list subscript out of range raises `IndexError`, modelled as
  `JVMError.IndexOutOfRange`.

Python text values are represented as lists of byte values (`List Nat`):
the decoded text of a `Utf8` constant is kept as its UTF-8 byte sequence,
which determines the Python `str` uniquely because UTF-8 decoding is
injective on valid encodings.

The mutually recursive attribute / code-attribute readers take a fuel
argument that strictly decreases on every nested call; the Python
original terminates because every step consumes file input, and every
theorem below that touches these readers either holds for all fuel or is
conditioned on a successful parse, so the fuel is never load-bearing.
-/

/-- Failure modes of the decoder, one per distinct Python exception source. -/
inductive JVMError where
  | TruncatedInput
  | NotAClassFile
  | MalformedConstant
  | IndexOutOfRange
deriving DecidableEq

/-- The byte source of `JVMClassFile`: the file contents plus the current
read position of the underlying file object. -/
structure ByteCursor where
  data : List Nat
  pos : Nat
deriving DecidableEq

/-- Models `JVMClassFile.U`: `struct.unpack_from` over `file.read(n)`.
Returns the next `n` bytes, or fails when fewer than `n` bytes remain. -/
def ByteCursor.U (c : ByteCursor) (n : Nat) : Except JVMError (List Nat × ByteCursor) :=
  if c.pos + n ≤ c.data.length then
    .ok ((c.data.drop c.pos).take n, ⟨c.data, c.pos + n⟩)
  else
    .error .TruncatedInput

/-- Big-endian value of a byte sequence, as computed by the `>B`, `>H`
and `>I` formats of `struct.unpack_from`. -/
def beVal : List Nat → Nat
  | [] => 0
  | b :: bs => b * 256 ^ bs.length + beVal bs

/-- Models `JVMClassFile.U1`. -/
def ByteCursor.U1 (c : ByteCursor) : Except JVMError (Nat × ByteCursor) :=
  match c.U 1 with
  | .error e => .error e
  | .ok (bs, c') => .ok (beVal bs, c')

/-- Models `JVMClassFile.U2` (big-endian u16). -/
def ByteCursor.U2 (c : ByteCursor) : Except JVMError (Nat × ByteCursor) :=
  match c.U 2 with
  | .error e => .error e
  | .ok (bs, c') => .ok (beVal bs, c')

/-- Models `JVMClassFile.U4` (big-endian u32). -/
def ByteCursor.U4 (c : ByteCursor) : Except JVMError (Nat × ByteCursor) :=
  match c.U 4 with
  | .error e => .error e
  | .ok (bs, c') => .ok (beVal bs, c')

/-- Continuation byte test for the UTF-8 validator. -/
def isCont (b : Nat) : Bool := 128 ≤ b && b < 192

/-- Validity of a byte sequence as UTF-8, as checked by Python's
`bytes.decode` with the strict `utf-8` codec: rejects stray continuation
bytes, overlong forms, surrogates and values above U+10FFFF. -/
def utf8Valid : List Nat → Bool
  | [] => true
  | b :: rest =>
    if b < 128 then utf8Valid rest
    else if 194 ≤ b && b ≤ 223 then
      match rest with
      | c1 :: r => isCont c1 && utf8Valid r
      | [] => false
    else if b = 224 then
      match rest with
      | c1 :: c2 :: r => (160 ≤ c1 && c1 < 192) && isCont c2 && utf8Valid r
      | _ => false
    else if (225 ≤ b && b ≤ 236) || b = 238 || b = 239 then
      match rest with
      | c1 :: c2 :: r => isCont c1 && isCont c2 && utf8Valid r
      | _ => false
    else if b = 237 then
      match rest with
      | c1 :: c2 :: r => (128 ≤ c1 && c1 < 160) && isCont c2 && utf8Valid r
      | _ => false
    else if b = 240 then
      match rest with
      | c1 :: c2 :: c3 :: r => (144 ≤ c1 && c1 < 192) && isCont c2 && isCont c3 && utf8Valid r
      | _ => false
    else if 241 ≤ b && b ≤ 243 then
      match rest with
      | c1 :: c2 :: c3 :: r => isCont c1 && isCont c2 && isCont c3 && utf8Valid r
      | _ => false
    else if b = 244 then
      match rest with
      | c1 :: c2 :: c3 :: r => (128 ≤ c1 && c1 < 144) && isCont c2 && isCont c3 && utf8Valid r
      | _ => false
    else false

/-- One constant-pool entry, the fields set by `JVMConstant.__init__`.
`TagOnly` captures the Python behaviour on a tag byte matched by no case
of the `match` statement: the object is constructed holding only
`self.tag` and no payload fields. -/
inductive JVMConstant where
  | Class (name_index : Nat)
  | Fieldref (class_index name_and_type_index : Nat)
  | Methodref (class_index name_and_type_index : Nat)
  | InterfaceMethodref (class_index name_and_type_index : Nat)
  | String (string_index : Nat)
  | Integer (bytes : Nat)
  | Float (bytes : Nat)
  | Long (high_bytes low_bytes : Nat)
  | Double (high_bytes low_bytes : Nat)
  | NameAndType (name_index descriptor_index : Nat)
  | Utf8 (length : Nat) (bytes : List Nat)
  | MethodHandle (reference_kind reference_index : Nat)
  | MethodType (descriptor_index : Nat)
  | InvokeDynamic (bootstrap_method_attr_index name_and_type_index : Nat)
  | TagOnly (tag : Nat)
deriving DecidableEq

/-- The `self.tag` attribute stored by `JVMConstant.__init__`. -/
def JVMConstant.tag : JVMConstant → Nat
  | .Class _ => 7
  | .Fieldref _ _ => 9
  | .Methodref _ _ => 10
  | .InterfaceMethodref _ _ => 11
  | .String _ => 8
  | .Integer _ => 3
  | .Float _ => 4
  | .Long _ _ => 5
  | .Double _ _ => 6
  | .NameAndType _ _ => 12
  | .Utf8 _ _ => 1
  | .MethodHandle _ _ => 15
  | .MethodType _ => 16
  | .InvokeDynamic _ _ => 18
  | .TagOnly t => t

/-- The tag values recognised by the `match` in `JVMConstant.__init__`,
in source order. -/
def knownTags : List Nat := [7, 9, 10, 11, 8, 3, 4, 5, 6, 12, 1, 15, 16, 18]

/-- Whether an entry is a Long or Double constant, the two kinds the
class-file format assigns two logical index slots. -/
def JVMConstant.isDoubleSlot : JVMConstant → Bool
  | .Long _ _ => true
  | .Double _ _ => true
  | _ => false

/-- Decimal digits of a natural number in ASCII, as produced by Python's
f-string conversion of an `int`.  Structural fuel keeps the definition
kernel-reducible; `n + 1` division steps always suffice. -/
def natDigitsAux : Nat → Nat → List Nat
  | 0, _ => []
  | fuel + 1, n => if n < 10 then [48 + n] else natDigitsAux fuel (n / 10) ++ [48 + n % 10]

/-- ASCII decimal rendering of a natural number. -/
def natDigits (n : Nat) : List Nat := natDigitsAux (n + 1) n

/-- The text produced by `JVMConstant.__str__` for a non-Utf8 entry:
the bytes of the f-string rendering of a dash-dash UNKNOWN marker
around the tag value. -/
def unknownText (tag : Nat) : List Nat :=
  [45, 45, 32, 85, 78, 75, 78, 79, 87, 78, 32] ++ natDigits tag ++ [32, 45, 45]

/-- The byte values of the attribute name the decoder specialises on
(ASCII of the four characters C, o, d, e). -/
def codeName : List Nat := [67, 111, 100, 101]

/-- Models `JVMConstant.__str__`: the stored text for a Utf8 entry,
otherwise the UNKNOWN marker built from the tag. -/
def JVMConstant.str : JVMConstant → List Nat
  | .Utf8 _ bs => bs
  | k => unknownText k.tag

/-- Reads one u16 payload and applies a constructor; factors the
single-field cases of `JVMConstant.__init__`. -/
def readOneU2 (k : Nat → JVMConstant) (c : ByteCursor) :
    Except JVMError (JVMConstant × ByteCursor) :=
  match c.U2 with
  | .error e => .error e
  | .ok (a, c1) => .ok (k a, c1)

/-- Reads two u16 payload fields and applies a constructor. -/
def readTwoU2 (k : Nat → Nat → JVMConstant) (c : ByteCursor) :
    Except JVMError (JVMConstant × ByteCursor) :=
  match c.U2 with
  | .error e => .error e
  | .ok (a, c1) =>
    match c1.U2 with
    | .error e => .error e
    | .ok (b, c2) => .ok (k a b, c2)

/-- Reads one u32 payload and applies a constructor. -/
def readOneU4 (k : Nat → JVMConstant) (c : ByteCursor) :
    Except JVMError (JVMConstant × ByteCursor) :=
  match c.U4 with
  | .error e => .error e
  | .ok (a, c1) => .ok (k a, c1)

/-- Reads two u32 payload fields and applies a constructor. -/
def readTwoU4 (k : Nat → Nat → JVMConstant) (c : ByteCursor) :
    Except JVMError (JVMConstant × ByteCursor) :=
  match c.U4 with
  | .error e => .error e
  | .ok (a, c1) =>
    match c1.U4 with
    | .error e => .error e
    | .ok (b, c2) => .ok (k a b, c2)

/-- Models `JVMConstant.__init__`: one tag byte, then the tag-specific
payload, dispatched in the source order of the `match` statement.  A tag
matched by no case falls through the whole `match` and yields an entry
holding only the tag, with no further bytes consumed. -/
def JVMConstant.read (c : ByteCursor) : Except JVMError (JVMConstant × ByteCursor) :=
  match c.U1 with
  | .error e => .error e
  | .ok (tag, c1) =>
    if tag = 7 then readOneU2 .Class c1
    else if tag = 9 then readTwoU2 .Fieldref c1
    else if tag = 10 then readTwoU2 .Methodref c1
    else if tag = 11 then readTwoU2 .InterfaceMethodref c1
    else if tag = 8 then readOneU2 .String c1
    else if tag = 3 then readOneU4 .Integer c1
    else if tag = 4 then readOneU4 .Float c1
    else if tag = 5 then readTwoU4 .Long c1
    else if tag = 6 then readTwoU4 .Double c1
    else if tag = 12 then readTwoU2 .NameAndType c1
    else if tag = 1 then
      match c1.U2 with
      | .error e => .error e
      | .ok (len, c2) =>
        match c2.U len with
        | .error e => .error e
        | .ok (bs, c3) =>
          if utf8Valid bs then .ok (.Utf8 len bs, c3) else .error .MalformedConstant
    else if tag = 15 then
      match c1.U1 with
      | .error e => .error e
      | .ok (rk, c2) =>
        match c2.U2 with
        | .error e => .error e
        | .ok (ri, c3) => .ok (.MethodHandle rk ri, c3)
    else if tag = 16 then readOneU2 .MethodType c1
    else if tag = 18 then readTwoU2 .InvokeDynamic c1
    else .ok (.TagOnly tag, c1)

/-- Reads `n` constant-pool entries in sequence, as the list
comprehension in `JVMClass.read_constant_pool` does. -/
def readConstantList : Nat → ByteCursor → Except JVMError (List JVMConstant × ByteCursor)
  | 0, c => .ok ([], c)
  | n + 1, c =>
    match JVMConstant.read c with
    | .error e => .error e
    | .ok (k, c1) =>
      match readConstantList n c1 with
      | .error e => .error e
      | .ok (ks, c2) => .ok (k :: ks, c2)

/-- Python list-subscript index translation: a negative index counts
from the end of the list. -/
def pyIndex (len : Nat) (i : Int) : Int := if i < 0 then i + len else i

/-- Python list subscript `l[i]`, failing with the modelled `IndexError`
when the translated index is out of range. -/
def pyGet {α : Type} (l : List α) (i : Int) : Except JVMError α :=
  if 0 ≤ pyIndex l.length i then
    match l.get? (pyIndex l.length i).toNat with
    | some x => .ok x
    | none => .error .IndexOutOfRange
  else .error .IndexOutOfRange

/-- Models the pool lookup of `JVMAttribute.__init__`:
`klass.constant_pool[attribute_name_index - 1]`, with the subtraction
performed over the integers as Python does. -/
def resolveName (pool : List JVMConstant) (i : Nat) : Except JVMError JVMConstant :=
  pyGet pool ((i : Int) - 1)

/-- The class-file format's logical constant-pool numbering, following
the spec's description: entries are numbered from 1, a Long or Double
entry occupies two logical index slots, and the slot after it is
unusable.  This definition follows the spec's words, not the source; it
exists to compare the source's physical indexing against the format's
numbering. -/
def formatResolve : List JVMConstant → Nat → Option JVMConstant
  | [], _ => none
  | k :: ks, i =>
    if i = 0 then none
    else if i = 1 then some k
    else if k.isDoubleSlot then
      if i = 2 then none else formatResolve ks (i - 2)
    else formatResolve ks (i - 1)

/-- One exception-table record of a Code attribute. -/
structure ExceptionEntry where
  start_pc : Nat
  end_pc : Nat
  handler_pc : Nat
  catch_type : Nat
deriving DecidableEq

/-- Reads one exception-table record: four u16 fields in source order. -/
def readExceptionEntry (c : ByteCursor) : Except JVMError (ExceptionEntry × ByteCursor) :=
  match c.U2 with
  | .error e => .error e
  | .ok (sp, c1) =>
    match c1.U2 with
    | .error e => .error e
    | .ok (ep, c2) =>
      match c2.U2 with
      | .error e => .error e
      | .ok (hp, c3) =>
        match c3.U2 with
        | .error e => .error e
        | .ok (ct, c4) => .ok (⟨sp, ep, hp, ct⟩, c4)

/-- Reads `n` exception-table records in sequence. -/
def readExceptionTable : Nat → ByteCursor → Except JVMError (List ExceptionEntry × ByteCursor)
  | 0, c => .ok ([], c)
  | n + 1, c =>
    match readExceptionEntry c with
    | .error e => .error e
    | .ok (x, c1) =>
      match readExceptionTable n c1 with
      | .error e => .error e
      | .ok (xs, c2) => .ok (x :: xs, c2)

mutual
/-- A parsed attribute: the fields stored by `JVMAttribute.__init__`. -/
inductive JVMAttribute : Type where
  | mk : Nat → JVMConstant → Nat → AttrInfo → JVMAttribute

/-- The `info` field of an attribute: a decoded Code attribute when the
resolved name equals the Code text, otherwise the raw payload bytes. -/
inductive AttrInfo : Type where
  | codeAttr : JVMCodeAttr → AttrInfo
  | blob : List Nat → AttrInfo

/-- A parsed Code attribute: the fields stored by `JVMCodeAttr.__init__`. -/
inductive JVMCodeAttr : Type where
  | mk : Nat → Nat → Nat → List Nat → Nat → List ExceptionEntry → Nat →
      List JVMAttribute → JVMCodeAttr
end

/-- The `attribute_name_index` field. -/
def JVMAttribute.attribute_name_index : JVMAttribute → Nat
  | .mk i _ _ _ => i

/-- The `attribute_name` field: the resolved constant-pool entry. -/
def JVMAttribute.attribute_name : JVMAttribute → JVMConstant
  | .mk _ k _ _ => k

/-- The `attribute_length` field. -/
def JVMAttribute.attribute_length : JVMAttribute → Nat
  | .mk _ _ l _ => l

/-- The `info` field. -/
def JVMAttribute.info : JVMAttribute → AttrInfo
  | .mk _ _ _ i => i

/-- The `max_stack` field. -/
def JVMCodeAttr.max_stack : JVMCodeAttr → Nat
  | .mk v _ _ _ _ _ _ _ => v

/-- The `max_locals` field. -/
def JVMCodeAttr.max_locals : JVMCodeAttr → Nat
  | .mk _ v _ _ _ _ _ _ => v

/-- The `code_length` field. -/
def JVMCodeAttr.code_length : JVMCodeAttr → Nat
  | .mk _ _ v _ _ _ _ _ => v

/-- The `code` field: the opaque instruction bytes. -/
def JVMCodeAttr.code : JVMCodeAttr → List Nat
  | .mk _ _ _ v _ _ _ _ => v

/-- The `exception_table_length` field. -/
def JVMCodeAttr.exception_table_length : JVMCodeAttr → Nat
  | .mk _ _ _ _ v _ _ _ => v

/-- The `exception_table` field. -/
def JVMCodeAttr.exception_table : JVMCodeAttr → List ExceptionEntry
  | .mk _ _ _ _ _ v _ _ => v

/-- The `attributes_count` field. -/
def JVMCodeAttr.attributes_count : JVMCodeAttr → Nat
  | .mk _ _ _ _ _ _ v _ => v

/-- The `attributes` field: the nested attributes. -/
def JVMCodeAttr.attributes : JVMCodeAttr → List JVMAttribute
  | .mk _ _ _ _ _ _ _ v => v

mutual
/-- Models `JVMAttribute.__init__`: reads `attribute_name_index` (u16),
resolves it through the constant pool by Python list subscript, reads
`attribute_length` (u32), then either delegates to the Code-attribute
reader when the resolved name's text equals the Code text, or reads
`attribute_length` raw payload bytes. -/
def readAttribute : Nat → List JVMConstant → ByteCursor →
    Except JVMError (JVMAttribute × ByteCursor)
  | 0, _, _ => .error .TruncatedInput
  | fuel + 1, pool, c =>
    match c.U2 with
    | .error e => .error e
    | .ok (nameIdx, c1) =>
      match resolveName pool nameIdx with
      | .error e => .error e
      | .ok nameK =>
        match c1.U4 with
        | .error e => .error e
        | .ok (len, c2) =>
          if nameK.str = codeName then
            match readCodeAttr fuel pool c2 with
            | .error e => .error e
            | .ok (ca, c3) => .ok (.mk nameIdx nameK len (.codeAttr ca), c3)
          else
            match c2.U len with
            | .error e => .error e
            | .ok (bs, c3) => .ok (.mk nameIdx nameK len (.blob bs), c3)

/-- Models `JVMCodeAttr.__init__`: `max_stack`, `max_locals` (u16 each),
`code_length` (u32), that many instruction bytes, the exception table
length (u16) and records, then the nested attributes count (u16) and
attributes, in that order. -/
def readCodeAttr : Nat → List JVMConstant → ByteCursor →
    Except JVMError (JVMCodeAttr × ByteCursor)
  | 0, _, _ => .error .TruncatedInput
  | fuel + 1, pool, c =>
    match c.U2 with
    | .error e => .error e
    | .ok (ms, c1) =>
      match c1.U2 with
      | .error e => .error e
      | .ok (ml, c2) =>
        match c2.U4 with
        | .error e => .error e
        | .ok (cl, c3) =>
          match c3.U cl with
          | .error e => .error e
          | .ok (code, c4) =>
            match c4.U2 with
            | .error e => .error e
            | .ok (etl, c5) =>
              match readExceptionTable etl c5 with
              | .error e => .error e
              | .ok (et, c6) =>
                match c6.U2 with
                | .error e => .error e
                | .ok (ac, c7) =>
                  match readAttributeList fuel ac pool c7 with
                  | .error e => .error e
                  | .ok (attrs, c8) => .ok (.mk ms ml cl code etl et ac attrs, c8)

/-- Reads `n` attributes in sequence against the same constant pool. -/
def readAttributeList : Nat → Nat → List JVMConstant → ByteCursor →
    Except JVMError (List JVMAttribute × ByteCursor)
  | 0, _, _, _ => .error .TruncatedInput
  | _ + 1, 0, _, c => .ok ([], c)
  | fuel + 1, n + 1, pool, c =>
    match readAttribute fuel pool c with
    | .error e => .error e
    | .ok (a, c1) =>
      match readAttributeList fuel n pool c1 with
      | .error e => .error e
      | .ok (rest, c2) => .ok (a :: rest, c2)
end

/-- A parsed field: the fields stored by `JVMField.__init__`. -/
structure JVMField where
  access_flags : Nat
  name_index : Nat
  descriptor_index : Nat
  attributes_count : Nat
  attributes : List JVMAttribute

/-- A parsed method: the fields stored by `JVMMethod.__init__`. -/
structure JVMMethod where
  access_flags : Nat
  name_index : Nat
  descriptor_index : Nat
  attributes_count : Nat
  attributes : List JVMAttribute

/-- Models `JVMField.__init__`: four u16 fields then the owned
attributes. -/
def readField (fuel : Nat) (pool : List JVMConstant) (c : ByteCursor) :
    Except JVMError (JVMField × ByteCursor) :=
  match c.U2 with
  | .error e => .error e
  | .ok (af, c1) =>
    match c1.U2 with
    | .error e => .error e
    | .ok (ni, c2) =>
      match c2.U2 with
      | .error e => .error e
      | .ok (di, c3) =>
        match c3.U2 with
        | .error e => .error e
        | .ok (ac, c4) =>
          match readAttributeList fuel ac pool c4 with
          | .error e => .error e
          | .ok (attrs, c5) => .ok (⟨af, ni, di, ac, attrs⟩, c5)

/-- Reads `n` fields in sequence. -/
def readFieldList (fuel : Nat) : Nat → List JVMConstant → ByteCursor →
    Except JVMError (List JVMField × ByteCursor)
  | 0, _, c => .ok ([], c)
  | n + 1, pool, c =>
    match readField fuel pool c with
    | .error e => .error e
    | .ok (f, c1) =>
      match readFieldList fuel n pool c1 with
      | .error e => .error e
      | .ok (fs, c2) => .ok (f :: fs, c2)

/-- Models `JVMMethod.__init__`: identical layout to a field. -/
def readMethod (fuel : Nat) (pool : List JVMConstant) (c : ByteCursor) :
    Except JVMError (JVMMethod × ByteCursor) :=
  match c.U2 with
  | .error e => .error e
  | .ok (af, c1) =>
    match c1.U2 with
    | .error e => .error e
    | .ok (ni, c2) =>
      match c2.U2 with
      | .error e => .error e
      | .ok (di, c3) =>
        match c3.U2 with
        | .error e => .error e
        | .ok (ac, c4) =>
          match readAttributeList fuel ac pool c4 with
          | .error e => .error e
          | .ok (attrs, c5) => .ok (⟨af, ni, di, ac, attrs⟩, c5)

/-- Reads `n` methods in sequence. -/
def readMethodList (fuel : Nat) : Nat → List JVMConstant → ByteCursor →
    Except JVMError (List JVMMethod × ByteCursor)
  | 0, _, c => .ok ([], c)
  | n + 1, pool, c =>
    match readMethod fuel pool c with
    | .error e => .error e
    | .ok (m, c1) =>
      match readMethodList fuel n pool c1 with
      | .error e => .error e
      | .ok (ms, c2) => .ok (m :: ms, c2)

/-- Reads `n` u16 values in sequence, as the interfaces list
comprehension does. -/
def readU2List : Nat → ByteCursor → Except JVMError (List Nat × ByteCursor)
  | 0, c => .ok ([], c)
  | n + 1, c =>
    match c.U2 with
    | .error e => .error e
    | .ok (v, c1) =>
      match readU2List n c1 with
      | .error e => .error e
      | .ok (vs, c2) => .ok (v :: vs, c2)

/-- Models `JVMClass.validate_class_file_magic`: reads a u32 and fails
unless it equals the class-file magic value. -/
def validateClassFileMagic (c : ByteCursor) : Except JVMError ByteCursor :=
  match c.U4 with
  | .error e => .error e
  | .ok (magic, c1) =>
    if magic = 0xCAFEBABE then .ok c1 else .error .NotAClassFile

/-- The decoded class file: the fields stored by `JVMClass.__init__`. -/
structure JVMClass where
  minor_version : Nat
  major_version : Nat
  constant_pool_count : Nat
  constant_pool : List JVMConstant
  access_flags : Nat
  this_class : Nat
  super_class : Nat
  interfaces_count : Nat
  interfaces : List Nat
  fields_count : Nat
  fields : List JVMField
  methods_count : Nat
  methods : List JVMMethod
  attributes_count : Nat
  attributes : List JVMAttribute

/-- Models `JVMClass.__init__`: the strict front-to-back decode of a
class file.  The constant-pool stage reads `constant_pool_count` (u16)
and then `constant_pool_count - 1` entries, Python's `range` treating a
negative bound as zero. -/
def readClass (fuel : Nat) (data : List Nat) : Except JVMError JVMClass :=
  match validateClassFileMagic ⟨data, 0⟩ with
  | .error e => .error e
  | .ok c1 =>
    match c1.U2 with
    | .error e => .error e
    | .ok (minor, c2) =>
      match c2.U2 with
      | .error e => .error e
      | .ok (major, c3) =>
        match c3.U2 with
        | .error e => .error e
        | .ok (cpc, c4) =>
          match readConstantList (cpc - 1) c4 with
          | .error e => .error e
          | .ok (pool, c5) =>
            match c5.U2 with
            | .error e => .error e
            | .ok (af, c6) =>
              match c6.U2 with
              | .error e => .error e
              | .ok (tc, c7) =>
                match c7.U2 with
                | .error e => .error e
                | .ok (sc, c8) =>
                  match c8.U2 with
                  | .error e => .error e
                  | .ok (icnt, c9) =>
                    match readU2List icnt c9 with
                    | .error e => .error e
                    | .ok (ifaces, c10) =>
                      match c10.U2 with
                      | .error e => .error e
                      | .ok (fcnt, c11) =>
                        match readFieldList fuel fcnt pool c11 with
                        | .error e => .error e
                        | .ok (flds, c12) =>
                          match c12.U2 with
                          | .error e => .error e
                          | .ok (mcnt, c13) =>
                            match readMethodList fuel mcnt pool c13 with
                            | .error e => .error e
                            | .ok (mths, c14) =>
                              match c14.U2 with
                              | .error e => .error e
                              | .ok (acnt, c15) =>
                                match readAttributeList fuel acnt pool c15 with
                                | .error e => .error e
                                | .ok (attrs, _c16) =>
                                  .ok ⟨minor, major, cpc, pool, af, tc, sc,
                                    icnt, ifaces, fcnt, flds, mcnt, mths, acnt, attrs⟩

/-! Helper lemmas about the cursor primitives and list readers. -/

/-- Characterisation of a successful `U`: the precondition held, the
returned bytes are the next `n` bytes, the position is advanced by `n`. -/
theorem ByteCursor.U_eq_ok {c : ByteCursor} {n : Nat} {bs : List Nat} {c' : ByteCursor}
    (h : c.U n = .ok (bs, c')) :
    c.pos + n ≤ c.data.length ∧ bs = (c.data.drop c.pos).take n ∧
      c' = ⟨c.data, c.pos + n⟩ := by
  unfold ByteCursor.U at h
  split at h
  next hc =>
    simp only [Except.ok.injEq, Prod.mk.injEq] at h
    exact ⟨hc, h.1.symm, h.2.symm⟩
  next hc => exact absurd h (by simp)

/-- Characterisation of a successful `U1`. -/
theorem ByteCursor.U1_eq_ok {c : ByteCursor} {v : Nat} {c' : ByteCursor}
    (h : c.U1 = .ok (v, c')) :
    c.pos + 1 ≤ c.data.length ∧ v = beVal ((c.data.drop c.pos).take 1) ∧
      c' = ⟨c.data, c.pos + 1⟩ := by
  unfold ByteCursor.U1 at h
  cases hu : c.U 1 with
  | error e => rw [hu] at h; exact absurd h (by simp)
  | ok p =>
    rw [hu] at h
    obtain ⟨bs, c1⟩ := p
    obtain ⟨hle, hbs, hc1⟩ := ByteCursor.U_eq_ok hu
    dsimp only at h
    simp only [Except.ok.injEq, Prod.mk.injEq] at h
    exact ⟨hle, by rw [← h.1, hbs], by rw [← h.2, hc1]⟩

/-- Characterisation of a successful `U2`. -/
theorem ByteCursor.U2_eq_ok {c : ByteCursor} {v : Nat} {c' : ByteCursor}
    (h : c.U2 = .ok (v, c')) :
    c.pos + 2 ≤ c.data.length ∧ v = beVal ((c.data.drop c.pos).take 2) ∧
      c' = ⟨c.data, c.pos + 2⟩ := by
  unfold ByteCursor.U2 at h
  cases hu : c.U 2 with
  | error e => rw [hu] at h; exact absurd h (by simp)
  | ok p =>
    rw [hu] at h
    obtain ⟨bs, c1⟩ := p
    obtain ⟨hle, hbs, hc1⟩ := ByteCursor.U_eq_ok hu
    dsimp only at h
    simp only [Except.ok.injEq, Prod.mk.injEq] at h
    exact ⟨hle, by rw [← h.1, hbs], by rw [← h.2, hc1]⟩

/-- Characterisation of a successful `U4`. -/
theorem ByteCursor.U4_eq_ok {c : ByteCursor} {v : Nat} {c' : ByteCursor}
    (h : c.U4 = .ok (v, c')) :
    c.pos + 4 ≤ c.data.length ∧ v = beVal ((c.data.drop c.pos).take 4) ∧
      c' = ⟨c.data, c.pos + 4⟩ := by
  unfold ByteCursor.U4 at h
  cases hu : c.U 4 with
  | error e => rw [hu] at h; exact absurd h (by simp)
  | ok p =>
    rw [hu] at h
    obtain ⟨bs, c1⟩ := p
    obtain ⟨hle, hbs, hc1⟩ := ByteCursor.U_eq_ok hu
    dsimp only at h
    simp only [Except.ok.injEq, Prod.mk.injEq] at h
    exact ⟨hle, by rw [← h.1, hbs], by rw [← h.2, hc1]⟩

/-- The text of a non-Utf8 entry never equals the Code text: it starts
with a dash, the Code text with an uppercase letter. -/
theorem unknownText_ne_codeName (t : Nat) : unknownText t ≠ codeName := by
  intro h
  simp [unknownText, codeName] at h

/-- A successful constant-list read yields exactly the requested number
of entries. -/
theorem readConstantList_ok_length :
    ∀ (n : Nat) (c : ByteCursor) (ks : List JVMConstant) (c' : ByteCursor),
    readConstantList n c = .ok (ks, c') → ks.length = n := by
  intro n
  induction n with
  | zero =>
    intro c ks c' h
    simp only [readConstantList, Except.ok.injEq, Prod.mk.injEq] at h
    rw [← h.1]
    rfl
  | succ m ih =>
    intro c ks c' h
    simp only [readConstantList] at h
    cases h1 : JVMConstant.read c with
    | error e => rw [h1] at h; exact absurd h (by simp)
    | ok p =>
      rw [h1] at h
      obtain ⟨k, c1⟩ := p
      dsimp only at h
      cases h2 : readConstantList m c1 with
      | error e => rw [h2] at h; exact absurd h (by simp)
      | ok q =>
        rw [h2] at h
        obtain ⟨ks2, c2⟩ := q
        dsimp only at h
        simp only [Except.ok.injEq, Prod.mk.injEq] at h
        rw [← h.1]
        simp [ih c1 ks2 c2 h2]

/-- A successful u16-list read yields exactly the requested number of
values. -/
theorem readU2List_ok_length :
    ∀ (n : Nat) (c : ByteCursor) (vs : List Nat) (c' : ByteCursor),
    readU2List n c = .ok (vs, c') → vs.length = n := by
  intro n
  induction n with
  | zero =>
    intro c vs c' h
    simp only [readU2List, Except.ok.injEq, Prod.mk.injEq] at h
    rw [← h.1]
    rfl
  | succ m ih =>
    intro c vs c' h
    simp only [readU2List] at h
    cases h1 : c.U2 with
    | error e => rw [h1] at h; exact absurd h (by simp)
    | ok p =>
      rw [h1] at h
      obtain ⟨v, c1⟩ := p
      dsimp only at h
      cases h2 : readU2List m c1 with
      | error e => rw [h2] at h; exact absurd h (by simp)
      | ok q =>
        rw [h2] at h
        obtain ⟨vs2, c2⟩ := q
        dsimp only at h
        simp only [Except.ok.injEq, Prod.mk.injEq] at h
        rw [← h.1]
        simp [ih c1 vs2 c2 h2]

/-- A successful exception-record read advances the position by exactly
eight bytes (four big-endian u16 fields) over the same data. -/
theorem readExceptionEntry_ok {c : ByteCursor} {x : ExceptionEntry} {c' : ByteCursor}
    (h : readExceptionEntry c = .ok (x, c')) :
    c'.data = c.data ∧ c'.pos = c.pos + 8 := by
  unfold readExceptionEntry at h
  cases h1 : c.U2 with
  | error e => rw [h1] at h; exact absurd h (by simp)
  | ok p1 =>
    rw [h1] at h
    obtain ⟨sp, c1⟩ := p1
    dsimp only at h
    cases h2 : c1.U2 with
    | error e => rw [h2] at h; exact absurd h (by simp)
    | ok p2 =>
      rw [h2] at h
      obtain ⟨ep, c2⟩ := p2
      dsimp only at h
      cases h3 : c2.U2 with
      | error e => rw [h3] at h; exact absurd h (by simp)
      | ok p3 =>
        rw [h3] at h
        obtain ⟨hp, c3⟩ := p3
        dsimp only at h
        cases h4 : c3.U2 with
        | error e => rw [h4] at h; exact absurd h (by simp)
        | ok p4 =>
          rw [h4] at h
          obtain ⟨ct, c4⟩ := p4
          dsimp only at h
          simp only [Except.ok.injEq, Prod.mk.injEq] at h
          obtain ⟨-, hc⟩ := h
          obtain ⟨-, -, e1⟩ := ByteCursor.U2_eq_ok h1
          obtain ⟨-, -, e2⟩ := ByteCursor.U2_eq_ok h2
          obtain ⟨-, -, e3⟩ := ByteCursor.U2_eq_ok h3
          obtain ⟨-, -, e4⟩ := ByteCursor.U2_eq_ok h4
          subst hc
          subst e1 e2 e3 e4
          refine ⟨rfl, ?_⟩
          show c.pos + 2 + 2 + 2 + 2 = c.pos + 8
          omega

/-- A successful exception-table read yields exactly `n` records and
consumes exactly `8 * n` bytes. -/
theorem readExceptionTable_ok :
    ∀ (n : Nat) (c : ByteCursor) (xs : List ExceptionEntry) (c' : ByteCursor),
    readExceptionTable n c = .ok (xs, c') →
    xs.length = n ∧ c'.data = c.data ∧ c'.pos = c.pos + 8 * n := by
  intro n
  induction n with
  | zero =>
    intro c xs c' h
    simp only [readExceptionTable, Except.ok.injEq, Prod.mk.injEq] at h
    obtain ⟨hxs, hc⟩ := h
    subst hc
    rw [← hxs]
    exact ⟨rfl, rfl, by omega⟩
  | succ m ih =>
    intro c xs c' h
    simp only [readExceptionTable] at h
    cases h1 : readExceptionEntry c with
    | error e => rw [h1] at h; exact absurd h (by simp)
    | ok p =>
      rw [h1] at h
      obtain ⟨x, c1⟩ := p
      dsimp only at h
      cases h2 : readExceptionTable m c1 with
      | error e => rw [h2] at h; exact absurd h (by simp)
      | ok q =>
        rw [h2] at h
        obtain ⟨xs2, c2⟩ := q
        dsimp only at h
        simp only [Except.ok.injEq, Prod.mk.injEq] at h
        obtain ⟨hxs, hc⟩ := h
        subst hc
        rw [← hxs]
        obtain ⟨d1, p1⟩ := readExceptionEntry_ok h1
        obtain ⟨l2, d2, p2⟩ := ih c1 xs2 c2 h2
        refine ⟨by simp [l2], by rw [d2, d1], by rw [p2, p1]; ring⟩

/-- A successful attribute-list read yields exactly the requested number
of attributes, whatever the fuel. -/
theorem readAttributeList_ok_length :
    ∀ (fuel n : Nat) (pool : List JVMConstant) (c : ByteCursor)
      (xs : List JVMAttribute) (c' : ByteCursor),
    readAttributeList fuel n pool c = .ok (xs, c') → xs.length = n := by
  intro fuel
  induction fuel with
  | zero =>
    intro n pool c xs c' h
    simp [readAttributeList] at h
  | succ f ih =>
    intro n pool c xs c' h
    cases n with
    | zero =>
      simp only [readAttributeList, Except.ok.injEq, Prod.mk.injEq] at h
      rw [← h.1]
      rfl
    | succ m =>
      simp only [readAttributeList] at h
      cases h1 : readAttribute f pool c with
      | error e => rw [h1] at h; exact absurd h (by simp)
      | ok p =>
        rw [h1] at h
        obtain ⟨a, c1⟩ := p
        dsimp only at h
        cases h2 : readAttributeList f m pool c1 with
        | error e => rw [h2] at h; exact absurd h (by simp)
        | ok q =>
          rw [h2] at h
          obtain ⟨rest, c2⟩ := q
          dsimp only at h
          simp only [Except.ok.injEq, Prod.mk.injEq] at h
          rw [← h.1]
          simp [ih m pool c1 rest c2 h2]

/-- A successful field-list read yields exactly the requested number of
fields. -/
theorem readFieldList_ok_length :
    ∀ (fuel n : Nat) (pool : List JVMConstant) (c : ByteCursor)
      (xs : List JVMField) (c' : ByteCursor),
    readFieldList fuel n pool c = .ok (xs, c') → xs.length = n := by
  intro fuel n
  induction n with
  | zero =>
    intro pool c xs c' h
    simp only [readFieldList, Except.ok.injEq, Prod.mk.injEq] at h
    rw [← h.1]
    rfl
  | succ m ih =>
    intro pool c xs c' h
    simp only [readFieldList] at h
    cases h1 : readField fuel pool c with
    | error e => rw [h1] at h; exact absurd h (by simp)
    | ok p =>
      rw [h1] at h
      obtain ⟨f, c1⟩ := p
      dsimp only at h
      cases h2 : readFieldList fuel m pool c1 with
      | error e => rw [h2] at h; exact absurd h (by simp)
      | ok q =>
        rw [h2] at h
        obtain ⟨fs, c2⟩ := q
        dsimp only at h
        simp only [Except.ok.injEq, Prod.mk.injEq] at h
        rw [← h.1]
        simp [ih pool c1 fs c2 h2]

/-- A successful method-list read yields exactly the requested number of
methods. -/
theorem readMethodList_ok_length :
    ∀ (fuel n : Nat) (pool : List JVMConstant) (c : ByteCursor)
      (xs : List JVMMethod) (c' : ByteCursor),
    readMethodList fuel n pool c = .ok (xs, c') → xs.length = n := by
  intro fuel n
  induction n with
  | zero =>
    intro pool c xs c' h
    simp only [readMethodList, Except.ok.injEq, Prod.mk.injEq] at h
    rw [← h.1]
    rfl
  | succ m ih =>
    intro pool c xs c' h
    simp only [readMethodList] at h
    cases h1 : readMethod fuel pool c with
    | error e => rw [h1] at h; exact absurd h (by simp)
    | ok p =>
      rw [h1] at h
      obtain ⟨f, c1⟩ := p
      dsimp only at h
      cases h2 : readMethodList fuel m pool c1 with
      | error e => rw [h2] at h; exact absurd h (by simp)
      | ok q =>
        rw [h2] at h
        obtain ⟨fs, c2⟩ := q
        dsimp only at h
        simp only [Except.ok.injEq, Prod.mk.injEq] at h
        rw [← h.1]
        simp [ih pool c1 fs c2 h2]

/-! Claim theorems. -/

/-- Claim C6: every cursor primitive (`U1`, `U2`, `U4`, `U n`) either
returns a fully-read value and advances the read position by exactly the
requested byte width, or fails with `TruncatedInput` when fewer than the
requested bytes remain; the position never decreases, no operation
returns partially-read data, and reading past end of stream is an error,
never an implicit zero-fill. -/
theorem cursor_read_total_or_truncated (c : ByteCursor) (n : Nat) :
    (c.data.length < c.pos + n → c.U n = .error .TruncatedInput) ∧
    (c.pos + n ≤ c.data.length →
      c.U n = .ok ((c.data.drop c.pos).take n, ⟨c.data, c.pos + n⟩)) ∧
    (∀ bs c', c.U n = .ok (bs, c') →
      bs.length = n ∧ bs = (c.data.drop c.pos).take n ∧
      c'.data = c.data ∧ c'.pos = c.pos + n ∧ c.pos ≤ c'.pos) ∧
    (c.data.length < c.pos + 1 → c.U1 = .error .TruncatedInput) ∧
    (∀ v c', c.U1 = .ok (v, c') →
      v = beVal ((c.data.drop c.pos).take 1) ∧ c'.data = c.data ∧
      c'.pos = c.pos + 1 ∧ c.pos ≤ c'.pos) ∧
    (c.data.length < c.pos + 2 → c.U2 = .error .TruncatedInput) ∧
    (∀ v c', c.U2 = .ok (v, c') →
      v = beVal ((c.data.drop c.pos).take 2) ∧ c'.data = c.data ∧
      c'.pos = c.pos + 2 ∧ c.pos ≤ c'.pos) ∧
    (c.data.length < c.pos + 4 → c.U4 = .error .TruncatedInput) ∧
    (∀ v c', c.U4 = .ok (v, c') →
      v = beVal ((c.data.drop c.pos).take 4) ∧ c'.data = c.data ∧
      c'.pos = c.pos + 4 ∧ c.pos ≤ c'.pos) := by
  have herr : ∀ m : Nat, c.data.length < c.pos + m → c.U m = .error .TruncatedInput := by
    intro m hm
    unfold ByteCursor.U
    rw [if_neg (by omega)]
  refine ⟨herr n, ?_, ?_, ?_, ?_, ?_, ?_, ?_, ?_⟩
  · intro hle
    unfold ByteCursor.U
    rw [if_pos hle]
  · intro bs c' h
    obtain ⟨hle, hbs, hc⟩ := ByteCursor.U_eq_ok h
    subst hbs hc
    refine ⟨?_, rfl, rfl, rfl, by dsimp; omega⟩
    simp [List.length_take, List.length_drop]
    omega
  · intro hm
    unfold ByteCursor.U1
    rw [herr 1 hm]
  · intro v c' h
    obtain ⟨hle, hv, hc⟩ := ByteCursor.U1_eq_ok h
    subst hv hc
    exact ⟨rfl, rfl, rfl, by dsimp; omega⟩
  · intro hm
    unfold ByteCursor.U2
    rw [herr 2 hm]
  · intro v c' h
    obtain ⟨hle, hv, hc⟩ := ByteCursor.U2_eq_ok h
    subst hv hc
    exact ⟨rfl, rfl, rfl, by dsimp; omega⟩
  · intro hm
    unfold ByteCursor.U4
    rw [herr 4 hm]
  · intro v c' h
    obtain ⟨hle, hv, hc⟩ := ByteCursor.U4_eq_ok h
    subst hv hc
    exact ⟨rfl, rfl, rfl, by dsimp; omega⟩

/-- Witness for C6 at concrete inputs: a short read fails with
`TruncatedInput`, a read within bounds returns the next bytes. -/
theorem cursor_read_total_or_truncated_witness :
    ByteCursor.U ⟨[1, 2, 3], 0⟩ 5 = .error .TruncatedInput ∧
    ByteCursor.U ⟨[1, 2, 3], 0⟩ 2 =
      .ok (([1, 2, 3].drop 0).take 2, ⟨[1, 2, 3], 0 + 2⟩) :=
  ⟨(cursor_read_total_or_truncated ⟨[1, 2, 3], 0⟩ 5).1 (by decide),
   (cursor_read_total_or_truncated ⟨[1, 2, 3], 0⟩ 2).2.1 (by decide)⟩

/-- Claim C7: an input whose leading four bytes are not the class-file
magic value is rejected with `NotAClassFile`; exactly those four bytes
are consumed by the magic check, and no class-file value is produced. -/
theorem magic_mismatch_rejected (fuel : Nat) (data : List Nat)
    (h4 : 4 ≤ data.length) (hm : beVal (data.take 4) ≠ 0xCAFEBABE) :
    ByteCursor.U4 ⟨data, 0⟩ = .ok (beVal (data.take 4), ⟨data, 4⟩) ∧
    validateClassFileMagic ⟨data, 0⟩ = .error .NotAClassFile ∧
    readClass fuel data = .error .NotAClassFile := by
  have hU : ByteCursor.U ⟨data, 0⟩ 4 = .ok ((data.drop 0).take 4, ⟨data, 0 + 4⟩) := by
    unfold ByteCursor.U
    rw [if_pos (by simpa using h4)]
  have hU4 : ByteCursor.U4 ⟨data, 0⟩ = .ok (beVal (data.take 4), ⟨data, 4⟩) := by
    unfold ByteCursor.U4
    rw [hU]
    simp
  have hv : validateClassFileMagic ⟨data, 0⟩ = .error .NotAClassFile := by
    unfold validateClassFileMagic
    rw [hU4]
    dsimp only
    rw [if_neg hm]
  refine ⟨hU4, hv, ?_⟩
  unfold readClass
  rw [hv]

/-- Witness for C7: four zero bytes are rejected as not a class file. -/
theorem magic_mismatch_rejected_witness :
    readClass 0 [0, 0, 0, 0] = .error .NotAClassFile :=
  (magic_mismatch_rejected 0 [0, 0, 0, 0] (by decide) (by decide)).2.2

/-- Claim C2 counterexample: reading a constant-pool entry with the
unrecognised tag byte 2 does not fail; it succeeds, constructing an
entry that holds only the tag and no payload fields, consuming only the
tag byte. -/
theorem unknown_tag_counterexample :
    JVMConstant.read ⟨[2, 99], 0⟩ = .ok (.TagOnly 2, ⟨[2, 99], 1⟩) := rfl

/-- Claim C2 as amended: for every tag byte that is not one of the 13
known constant-pool tags, reading a constant-pool entry succeeds with an
entry holding only the tag and no payload fields, consuming no payload
bytes; no error is raised. -/
theorem unknown_tag_tagonly (c c1 : ByteCursor) (tag : Nat)
    (h : c.U1 = .ok (tag, c1)) (hu : tag ∉ knownTags) :
    JVMConstant.read c = .ok (.TagOnly tag, c1) := by
  simp only [knownTags, List.mem_cons, List.not_mem_nil, or_false, not_or] at hu
  obtain ⟨n7, n9, n10, n11, n8, n3, n4, n5, n6, n12, n1, n15, n16, n18⟩ := hu
  unfold JVMConstant.read
  rw [h]
  dsimp only
  rw [if_neg n7, if_neg n9, if_neg n10, if_neg n11, if_neg n8, if_neg n3, if_neg n4,
    if_neg n5, if_neg n6, if_neg n12, if_neg n1, if_neg n15, if_neg n16, if_neg n18]

/-- Witness for the amended C2 at tag 19. -/
theorem unknown_tag_tagonly_witness :
    JVMConstant.read ⟨[19], 0⟩ = .ok (.TagOnly 19, ⟨[19], 1⟩) :=
  unknown_tag_tagonly ⟨[19], 0⟩ ⟨[19], 1⟩ 19 rfl (by decide)

/-- Claim C3 counterexample: a pool lookup with index 0 does not fail;
Python's negative list indexing resolves it to the last pool entry, and
an attribute whose `attribute_name_index` is 0 parses successfully. -/
theorem index_zero_counterexample :
    resolveName [.Utf8 1 [65]] 0 = .ok (.Utf8 1 [65]) ∧
    readAttribute 5 [.Utf8 1 [65]] ⟨[0, 0, 0, 0, 0, 0], 0⟩ =
      .ok (.mk 0 (.Utf8 1 [65]) 0 (.blob []), ⟨[0, 0, 0, 0, 0, 0], 6⟩) :=
  ⟨rfl, rfl⟩

/-- Claim C3 as amended: a pool lookup with an index greater than the
number of stored entries fails with `IndexOutOfRange`; an index of 0 is
translated by Python's negative indexing to the last stored entry, so it
resolves successfully whenever the pool is nonempty and fails only for
an empty pool. -/
theorem resolve_bounds_amended (pool : List JVMConstant) (i : Nat) :
    (pool.length < i → resolveName pool i = .error .IndexOutOfRange) ∧
    (pool = [] → resolveName pool 0 = .error .IndexOutOfRange) ∧
    (∀ x, pool.getLast? = some x → resolveName pool 0 = .ok x) := by
  refine ⟨?_, ?_, ?_⟩
  · intro hlen
    unfold resolveName pyGet
    have hpi : pyIndex pool.length ((i : Int) - 1) = (i : Int) - 1 := by
      unfold pyIndex
      rw [if_neg (by omega)]
    rw [hpi, if_pos (by omega)]
    have hnone : pool.get? ((i : Int) - 1).toNat = none :=
      List.get?_eq_none.2 (by omega)
    rw [hnone]
  · intro hnil
    subst hnil
    rfl
  · intro x hx
    have hlen : 1 ≤ pool.length := by
      cases pool with
      | nil => simp at hx
      | cons a l => simp
    unfold resolveName pyGet
    have hpi : pyIndex pool.length (((0 : Nat) : Int) - 1) = -1 + pool.length := by
      unfold pyIndex
      rw [if_pos (by omega)]
      push_cast
      ring
    rw [hpi, if_pos (by omega)]
    have ht : ((-1 : Int) + pool.length).toNat = pool.length - 1 := by omega
    rw [ht]
    rw [List.getLast?_eq_get? pool] at hx
    rw [hx]

/-- Witness for the amended C3: index 2 into a one-entry pool fails. -/
theorem resolve_bounds_amended_witness :
    resolveName [JVMConstant.Utf8 1 [65]] 2 = .error .IndexOutOfRange :=
  (resolve_bounds_amended [JVMConstant.Utf8 1 [65]] 2).1 (by decide)

/-- Claim C4 counterexample: an attribute whose name index resolves to
an Integer entry (not Utf8) does not fail; the name renders as the
UNKNOWN marker text and the attribute parses as an opaque payload. -/
theorem non_utf8_name_counterexample :
    readAttribute 5 [.Integer 5] ⟨[0, 1, 0, 0, 0, 2, 170, 187], 0⟩ =
      .ok (.mk 1 (.Integer 5) 2 (.blob [170, 187]),
        ⟨[0, 1, 0, 0, 0, 2, 170, 187], 8⟩) := rfl

/-- Claim C4 as amended: when the resolved name entry is not a Utf8
variant, no `WrongConstantKind` error exists or is raised; the entry's
text is the UNKNOWN marker built from its tag, which never equals the
Code text, so the attribute parses successfully as an opaque payload. -/
theorem non_utf8_name_continues (fuel : Nat) (pool : List JVMConstant)
    (c c1 c2 c3 : ByteCursor) (i len : Nat) (k : JVMConstant) (bs : List Nat)
    (h1 : c.U2 = .ok (i, c1))
    (h2 : resolveName pool i = .ok k)
    (h3 : ∀ l bs2, k ≠ .Utf8 l bs2)
    (h4 : c1.U4 = .ok (len, c2))
    (h5 : c2.U len = .ok (bs, c3)) :
    k.str = unknownText k.tag ∧
    readAttribute (fuel + 1) pool c = .ok (.mk i k len (.blob bs), c3) := by
  have hstr : k.str = unknownText k.tag := by
    cases k <;> first | rfl | exact absurd rfl (h3 _ _)
  refine ⟨hstr, ?_⟩
  simp only [readAttribute]
  rw [h1]
  dsimp only
  rw [h2]
  dsimp only
  rw [h4]
  dsimp only
  rw [if_neg (by rw [hstr]; exact unknownText_ne_codeName k.tag), h5]

/-- Witness for the amended C4: a Long-named attribute parses as blob. -/
theorem non_utf8_name_continues_witness :
    (JVMConstant.Long 1 2).str = unknownText (JVMConstant.Long 1 2).tag ∧
    readAttribute 4 [.Long 1 2] ⟨[0, 1, 0, 0, 0, 1, 7], 0⟩ =
      .ok (.mk 1 (.Long 1 2) 1 (.blob [7]), ⟨[0, 1, 0, 0, 0, 1, 7], 7⟩) :=
  non_utf8_name_continues 3 [.Long 1 2] ⟨[0, 1, 0, 0, 0, 1, 7], 0⟩
    ⟨[0, 1, 0, 0, 0, 1, 7], 2⟩ ⟨[0, 1, 0, 0, 0, 1, 7], 6⟩ ⟨[0, 1, 0, 0, 0, 1, 7], 7⟩
    1 1 (.Long 1 2) [7] rfl rfl (by intro l bs2 h; cases h) rfl rfl

/-- Claim C5 counterexample: an attribute named Code whose declared
`attribute_length` is 99 parses successfully even though the Code body
consumes only 12 bytes (cursor moves from 6 to 18); no
`AttributeLengthMismatch` is raised. -/
theorem code_length_unchecked_counterexample :
    readAttribute 5 [.Utf8 4 [67, 111, 100, 101]]
      ⟨[0, 1, 0, 0, 0, 99, 0, 0, 0, 0, 0, 0, 0, 0, 0, 0, 0, 0], 0⟩ =
      .ok (.mk 1 (.Utf8 4 [67, 111, 100, 101]) 99 (.codeAttr (.mk 0 0 0 [] 0 [] 0 [])),
        ⟨[0, 1, 0, 0, 0, 99, 0, 0, 0, 0, 0, 0, 0, 0, 0, 0, 0, 0], 18⟩) ∧
    18 - 6 ≠ 99 := ⟨rfl, by decide⟩

/-- Claim C5 as amended: when the resolved name's text equals the Code
text, the parser delegates to the Code-attribute decoder, which reads
its own self-delimiting layout; the declared `attribute_length` is
stored but never compared with the number of bytes the decoder
consumes, so the parse succeeds whatever that declared length is. -/
theorem code_attr_no_length_check (fuel : Nat) (pool : List JVMConstant)
    (c c1 c2 c3 : ByteCursor) (i len : Nat) (k : JVMConstant) (ca : JVMCodeAttr)
    (h1 : c.U2 = .ok (i, c1))
    (h2 : resolveName pool i = .ok k)
    (h3 : k.str = codeName)
    (h4 : c1.U4 = .ok (len, c2))
    (h5 : readCodeAttr fuel pool c2 = .ok (ca, c3)) :
    readAttribute (fuel + 1) pool c = .ok (.mk i k len (.codeAttr ca), c3) := by
  simp only [readAttribute]
  rw [h1]
  dsimp only
  rw [h2]
  dsimp only
  rw [h4]
  dsimp only
  rw [if_pos h3, h5]

/-- Witness for the amended C5: declared length 77, body of 12 bytes. -/
theorem code_attr_no_length_check_witness :
    readAttribute 3 [.Utf8 4 [67, 111, 100, 101]]
      ⟨[0, 1, 0, 0, 0, 77, 0, 0, 0, 0, 0, 0, 0, 0, 0, 0, 0, 0], 0⟩ =
      .ok (.mk 1 (.Utf8 4 [67, 111, 100, 101]) 77 (.codeAttr (.mk 0 0 0 [] 0 [] 0 [])),
        ⟨[0, 1, 0, 0, 0, 77, 0, 0, 0, 0, 0, 0, 0, 0, 0, 0, 0, 0], 18⟩) :=
  code_attr_no_length_check 2 [.Utf8 4 [67, 111, 100, 101]]
    ⟨[0, 1, 0, 0, 0, 77, 0, 0, 0, 0, 0, 0, 0, 0, 0, 0, 0, 0], 0⟩
    ⟨[0, 1, 0, 0, 0, 77, 0, 0, 0, 0, 0, 0, 0, 0, 0, 0, 0, 0], 2⟩
    ⟨[0, 1, 0, 0, 0, 77, 0, 0, 0, 0, 0, 0, 0, 0, 0, 0, 0, 0], 6⟩
    ⟨[0, 1, 0, 0, 0, 77, 0, 0, 0, 0, 0, 0, 0, 0, 0, 0, 0, 0], 18⟩
    1 77 (.Utf8 4 [67, 111, 100, 101]) (.mk 0 0 0 [] 0 [] 0 [])
    rfl rfl rfl rfl rfl

/-- Claim C9: an attribute whose resolved name's text differs from the
Code text stores an opaque payload of exactly `attribute_length` bytes
and performs no further interpretation; the cursor advances by exactly
that many bytes past the header. -/
theorem non_code_attribute_opaque (fuel : Nat) (pool : List JVMConstant)
    (c c1 c2 c3 : ByteCursor) (i len : Nat) (k : JVMConstant) (bs : List Nat)
    (h1 : c.U2 = .ok (i, c1))
    (h2 : resolveName pool i = .ok k)
    (h3 : k.str ≠ codeName)
    (h4 : c1.U4 = .ok (len, c2))
    (h5 : c2.U len = .ok (bs, c3)) :
    readAttribute (fuel + 1) pool c = .ok (.mk i k len (.blob bs), c3) ∧
    bs.length = len ∧ c3.pos = c2.pos + len := by
  obtain ⟨hle, hbs, hc3⟩ := ByteCursor.U_eq_ok h5
  refine ⟨?_, ?_, ?_⟩
  · simp only [readAttribute]
    rw [h1]
    dsimp only
    rw [h2]
    dsimp only
    rw [h4]
    dsimp only
    rw [if_neg h3, h5]
  · subst hbs
    simp [List.length_take, List.length_drop]
    omega
  · subst hc3
    rfl

/-- Witness for C9: an attribute named by a Utf8 entry that is not Code
stores its two payload bytes opaquely. -/
theorem non_code_attribute_opaque_witness :
    readAttribute 4 [.Utf8 1 [65]] ⟨[0, 1, 0, 0, 0, 2, 9, 9], 0⟩ =
      .ok (.mk 1 (.Utf8 1 [65]) 2 (.blob [9, 9]), ⟨[0, 1, 0, 0, 0, 2, 9, 9], 8⟩) ∧
    ([9, 9] : List Nat).length = 2 ∧
    (⟨[0, 1, 0, 0, 0, 2, 9, 9], 8⟩ : ByteCursor).pos =
      (⟨[0, 1, 0, 0, 0, 2, 9, 9], 6⟩ : ByteCursor).pos + 2 :=
  non_code_attribute_opaque 3 [.Utf8 1 [65]] ⟨[0, 1, 0, 0, 0, 2, 9, 9], 0⟩
    ⟨[0, 1, 0, 0, 0, 2, 9, 9], 2⟩ ⟨[0, 1, 0, 0, 0, 2, 9, 9], 6⟩
    ⟨[0, 1, 0, 0, 0, 2, 9, 9], 8⟩ 1 2 (.Utf8 1 [65]) [9, 9]
    rfl rfl (by decide) rfl rfl

/-- When no Long/Double entry occurs among the first `i - 1` stored
entries, the class-file format's logical numbering agrees with plain
physical indexing. -/
theorem formatResolve_no_double_slot :
    ∀ (pool : List JVMConstant) (i : Nat) (x : JVMConstant), 1 ≤ i →
    pool.get? (i - 1) = some x →
    (∀ k ∈ pool.take (i - 1), k.isDoubleSlot = false) →
    formatResolve pool i = some x := by
  intro pool
  induction pool with
  | nil =>
    intro i x h1 hx hds
    simp at hx
  | cons k ks ih =>
    intro i x h1 hx hds
    rcases Nat.lt_or_ge i 2 with hi | hi
    · have hi1 : i = 1 := by omega
      subst hi1
      simp at hx
      simp [formatResolve, hx]
    · obtain ⟨m, rfl⟩ : ∃ m, i = m + 2 := ⟨i - 2, by omega⟩
      have harith : m + 2 - 1 = m + 1 := rfl
      rw [harith] at hx hds
      rw [List.take_succ_cons] at hds
      have hk : k.isDoubleSlot = false := hds k (by simp)
      have hds2 : ∀ k2 ∈ ks.take m, k2.isDoubleSlot = false :=
        fun k2 hm2 => hds k2 (by simp [hm2])
      have hx2 : ks.get? (m + 1 - 1) = some x := by simpa using hx
      have hrec := ih (m + 1) x (by omega) hx2 (by simpa using hds2)
      simp only [formatResolve]
      rw [if_neg (by omega), if_neg (by omega), hk]
      simp only [Bool.false_eq_true, if_false]
      show formatResolve ks (m + 2 - 1) = some x
      simpa using hrec

/-- Claim C1 counterexample: in a pool whose first entry is a Long, the
decoder resolves external index 3 to the third stored entry, while the
class-file format's numbering assigns index 3 to the second stored entry
(the Long occupies logical slots 1 and 2); the two entries differ. -/
theorem long_double_indexing_counterexample :
    resolveName [.Long 0 0, .Utf8 1 [65], .Utf8 1 [66]] 3 = .ok (.Utf8 1 [66]) ∧
    formatResolve [.Long 0 0, .Utf8 1 [65], .Utf8 1 [66]] 3 = some (.Utf8 1 [65]) ∧
    JVMConstant.Utf8 1 [66] ≠ JVMConstant.Utf8 1 [65] :=
  ⟨rfl, rfl, by decide⟩

/-- Claim C1 as amended: the pool lookup used during attribute-name
resolution maps external index `i` to physical slot `i - 1` with no
double-slot adjustment; it agrees with the class-file format's logical
numbering exactly when no Long/Double entry occurs among the first
`i - 1` stored entries, and misaligns for entries positioned after a
Long/Double entry. -/
theorem resolve_physical_indexing (pool : List JVMConstant) (i : Nat) (x : JVMConstant)
    (h1 : 1 ≤ i) (hx : pool.get? (i - 1) = some x) :
    resolveName pool i = .ok x ∧
    ((∀ k ∈ pool.take (i - 1), k.isDoubleSlot = false) →
      formatResolve pool i = some x) := by
  refine ⟨?_, fun hds => formatResolve_no_double_slot pool i x h1 hx hds⟩
  unfold resolveName pyGet
  have hpi : pyIndex pool.length ((i : Int) - 1) = (i : Int) - 1 := by
    unfold pyIndex
    rw [if_neg (by omega)]
  rw [hpi, if_pos (by omega)]
  have ht : ((i : Int) - 1).toNat = i - 1 := by omega
  rw [ht, hx]

/-- Witness for the amended C1 on a one-entry pool at index 1. -/
theorem resolve_physical_indexing_witness :
    resolveName [JVMConstant.Utf8 1 [65]] 1 = .ok (JVMConstant.Utf8 1 [65]) ∧
    ((∀ k ∈ List.take (1 - 1) [JVMConstant.Utf8 1 [65]], k.isDoubleSlot = false) →
      formatResolve [JVMConstant.Utf8 1 [65]] 1 = some (JVMConstant.Utf8 1 [65])) :=
  resolve_physical_indexing [JVMConstant.Utf8 1 [65]] 1 (JVMConstant.Utf8 1 [65])
    (by decide) rfl

/-- Claim C8: for every class file that decodes successfully, the pool
holds exactly `constant_pool_count - 1` entries and the stored counts
match the built sequences for interfaces, fields and methods. -/
theorem decode_counts (fuel : Nat) (data : List Nat) (k : JVMClass)
    (h : readClass fuel data = .ok k) :
    k.constant_pool.length = k.constant_pool_count - 1 ∧
    k.interfaces.length = k.interfaces_count ∧
    k.fields.length = k.fields_count ∧
    k.methods.length = k.methods_count := by
  unfold readClass at h
  cases h1 : validateClassFileMagic ⟨data, 0⟩
  case error => rw [h1] at h; exact absurd h (by simp)
  rename_i c1
  rw [h1] at h
  dsimp only at h
  cases h2 : c1.U2
  case error => rw [h2] at h; exact absurd h (by simp)
  rename_i p2
  rw [h2] at h
  obtain ⟨minor, c2⟩ := p2
  dsimp only at h
  cases h3 : c2.U2
  case error => rw [h3] at h; exact absurd h (by simp)
  rename_i p3
  rw [h3] at h
  obtain ⟨major, c3⟩ := p3
  dsimp only at h
  cases h4 : c3.U2
  case error => rw [h4] at h; exact absurd h (by simp)
  rename_i p4
  rw [h4] at h
  obtain ⟨cpc, c4⟩ := p4
  dsimp only at h
  cases h5 : readConstantList (cpc - 1) c4
  case error => rw [h5] at h; exact absurd h (by simp)
  rename_i p5
  rw [h5] at h
  obtain ⟨pool, c5⟩ := p5
  dsimp only at h
  cases h6 : c5.U2
  case error => rw [h6] at h; exact absurd h (by simp)
  rename_i p6
  rw [h6] at h
  obtain ⟨af, c6⟩ := p6
  dsimp only at h
  cases h7 : c6.U2
  case error => rw [h7] at h; exact absurd h (by simp)
  rename_i p7
  rw [h7] at h
  obtain ⟨tc, c7⟩ := p7
  dsimp only at h
  cases h8 : c7.U2
  case error => rw [h8] at h; exact absurd h (by simp)
  rename_i p8
  rw [h8] at h
  obtain ⟨sc, c8⟩ := p8
  dsimp only at h
  cases h9 : c8.U2
  case error => rw [h9] at h; exact absurd h (by simp)
  rename_i p9
  rw [h9] at h
  obtain ⟨icnt, c9⟩ := p9
  dsimp only at h
  cases h10 : readU2List icnt c9
  case error => rw [h10] at h; exact absurd h (by simp)
  rename_i p10
  rw [h10] at h
  obtain ⟨ifaces, c10⟩ := p10
  dsimp only at h
  cases h11 : c10.U2
  case error => rw [h11] at h; exact absurd h (by simp)
  rename_i p11
  rw [h11] at h
  obtain ⟨fcnt, c11⟩ := p11
  dsimp only at h
  cases h12 : readFieldList fuel fcnt pool c11
  case error => rw [h12] at h; exact absurd h (by simp)
  rename_i p12
  rw [h12] at h
  obtain ⟨flds, c12⟩ := p12
  dsimp only at h
  cases h13 : c12.U2
  case error => rw [h13] at h; exact absurd h (by simp)
  rename_i p13
  rw [h13] at h
  obtain ⟨mcnt, c13⟩ := p13
  dsimp only at h
  cases h14 : readMethodList fuel mcnt pool c13
  case error => rw [h14] at h; exact absurd h (by simp)
  rename_i p14
  rw [h14] at h
  obtain ⟨mths, c14⟩ := p14
  dsimp only at h
  cases h15 : c14.U2
  case error => rw [h15] at h; exact absurd h (by simp)
  rename_i p15
  rw [h15] at h
  obtain ⟨acnt, c15⟩ := p15
  dsimp only at h
  cases h16 : readAttributeList fuel acnt pool c15
  case error => rw [h16] at h; exact absurd h (by simp)
  rename_i p16
  rw [h16] at h
  obtain ⟨attrs, c16⟩ := p16
  dsimp only at h
  simp only [Except.ok.injEq] at h
  subst h
  exact ⟨readConstantList_ok_length _ _ _ _ h5,
    readU2List_ok_length _ _ _ _ h10,
    readFieldList_ok_length _ _ _ _ _ _ h12,
    readMethodList_ok_length _ _ _ _ _ _ h14⟩

/-- Witness for C8: a minimal 24-byte class file with an empty pool and
no interfaces, fields, methods or attributes. -/
theorem decode_counts_witness :
    (JVMClass.mk 0 52 1 [] 0 0 0 0 [] 0 [] 0 [] 0 []).constant_pool.length =
      (JVMClass.mk 0 52 1 [] 0 0 0 0 [] 0 [] 0 [] 0 []).constant_pool_count - 1 ∧
    (JVMClass.mk 0 52 1 [] 0 0 0 0 [] 0 [] 0 [] 0 []).interfaces.length =
      (JVMClass.mk 0 52 1 [] 0 0 0 0 [] 0 [] 0 [] 0 []).interfaces_count ∧
    (JVMClass.mk 0 52 1 [] 0 0 0 0 [] 0 [] 0 [] 0 []).fields.length =
      (JVMClass.mk 0 52 1 [] 0 0 0 0 [] 0 [] 0 [] 0 []).fields_count ∧
    (JVMClass.mk 0 52 1 [] 0 0 0 0 [] 0 [] 0 [] 0 []).methods.length =
      (JVMClass.mk 0 52 1 [] 0 0 0 0 [] 0 [] 0 [] 0 []).methods_count :=
  decode_counts 1
    [202, 254, 186, 190, 0, 0, 0, 52, 0, 1, 0, 0, 0, 0, 0, 0, 0, 0, 0, 0, 0, 0, 0, 0]
    (JVMClass.mk 0 52 1 [] 0 0 0 0 [] 0 [] 0 [] 0 []) rfl

/-- Claim C10: a successful Code-attribute decode reads, in this exact
order: `max_stack` and `max_locals` as u16, `code_length` as u32,
exactly `code_length` opaque instruction bytes, `exception_table_length`
as u16, then exactly that many four-u16-field records (consuming exactly
`8 * exception_table_length` bytes of table), then `attributes_count` as
u16 followed by that many nested attributes parsed against the same
constant pool. -/
theorem code_attr_reads_in_order (fuel : Nat) (pool : List JVMConstant)
    (c c' : ByteCursor) (ca : JVMCodeAttr)
    (h : readCodeAttr (fuel + 1) pool c = .ok (ca, c')) :
    ∃ ms ml cl code etl et ac attrs c1 c2 c3 c4 c5 c6 c7,
      ca = JVMCodeAttr.mk ms ml cl code etl et ac attrs ∧
      c.U2 = .ok (ms, c1) ∧
      c1.U2 = .ok (ml, c2) ∧
      c2.U4 = .ok (cl, c3) ∧
      c3.U cl = .ok (code, c4) ∧ code.length = cl ∧
      c4.U2 = .ok (etl, c5) ∧
      readExceptionTable etl c5 = .ok (et, c6) ∧
      et.length = etl ∧ c6.data = c5.data ∧ c6.pos = c5.pos + 8 * etl ∧
      c6.U2 = .ok (ac, c7) ∧
      readAttributeList fuel ac pool c7 = .ok (attrs, c') ∧
      attrs.length = ac := by
  simp only [readCodeAttr] at h
  cases h1 : c.U2
  case error => rw [h1] at h; exact absurd h (by simp)
  rename_i p1
  rw [h1] at h
  obtain ⟨ms, c1⟩ := p1
  dsimp only at h
  cases h2 : c1.U2
  case error => rw [h2] at h; exact absurd h (by simp)
  rename_i p2
  rw [h2] at h
  obtain ⟨ml, c2⟩ := p2
  dsimp only at h
  cases h3 : c2.U4
  case error => rw [h3] at h; exact absurd h (by simp)
  rename_i p3
  rw [h3] at h
  obtain ⟨cl, c3⟩ := p3
  dsimp only at h
  cases h4 : c3.U cl
  case error => rw [h4] at h; exact absurd h (by simp)
  rename_i p4
  rw [h4] at h
  obtain ⟨code, c4⟩ := p4
  dsimp only at h
  cases h5 : c4.U2
  case error => rw [h5] at h; exact absurd h (by simp)
  rename_i p5
  rw [h5] at h
  obtain ⟨etl, c5⟩ := p5
  dsimp only at h
  cases h6 : readExceptionTable etl c5
  case error => rw [h6] at h; exact absurd h (by simp)
  rename_i p6
  rw [h6] at h
  obtain ⟨et, c6⟩ := p6
  dsimp only at h
  cases h7 : c6.U2
  case error => rw [h7] at h; exact absurd h (by simp)
  rename_i p7
  rw [h7] at h
  obtain ⟨ac, c7⟩ := p7
  dsimp only at h
  cases h8 : readAttributeList fuel ac pool c7
  case error => rw [h8] at h; exact absurd h (by simp)
  rename_i p8
  rw [h8] at h
  obtain ⟨attrs, c8⟩ := p8
  dsimp only at h
  simp only [Except.ok.injEq, Prod.mk.injEq] at h
  obtain ⟨hca, hc8⟩ := h
  subst hc8
  subst hca
  obtain ⟨hle4, hcode, hc4⟩ := ByteCursor.U_eq_ok h4
  have hcl : code.length = cl := by
    rw [hcode]
    simp [List.length_take, List.length_drop]
    omega
  obtain ⟨hetl, hd6, hp6⟩ := readExceptionTable_ok _ _ _ _ h6
  have hacl := readAttributeList_ok_length _ _ _ _ _ _ h8
  exact ⟨ms, ml, cl, code, etl, et, ac, attrs, c1, c2, c3, c4, c5, c6, c7,
    rfl, rfl, h2, h3, h4, hcl, h5, h6, hetl, hd6, hp6, h7, h8, hacl⟩

/-- Witness for C10: a Code body with one instruction byte and one
exception record, decoded from 21 concrete bytes. -/
theorem code_attr_reads_in_order_witness :
    ∃ ms ml cl code etl et ac attrs c1 c2 c3 c4 c5 c6 c7,
      (JVMCodeAttr.mk 1 2 1 [177] 1 [⟨0, 5, 6, 0⟩] 0 []) =
        JVMCodeAttr.mk ms ml cl code etl et ac attrs ∧
      ByteCursor.U2 ⟨[0, 1, 0, 2, 0, 0, 0, 1, 177, 0, 1, 0, 0, 0, 5, 0, 6, 0, 0, 0, 0], 0⟩ =
        .ok (ms, c1) ∧
      c1.U2 = .ok (ml, c2) ∧
      c2.U4 = .ok (cl, c3) ∧
      c3.U cl = .ok (code, c4) ∧ code.length = cl ∧
      c4.U2 = .ok (etl, c5) ∧
      readExceptionTable etl c5 = .ok (et, c6) ∧
      et.length = etl ∧ c6.data = c5.data ∧ c6.pos = c5.pos + 8 * etl ∧
      c6.U2 = .ok (ac, c7) ∧
      readAttributeList 1 ac []
        c7 = .ok (attrs,
          ⟨[0, 1, 0, 2, 0, 0, 0, 1, 177, 0, 1, 0, 0, 0, 5, 0, 6, 0, 0, 0, 0], 21⟩) ∧
      attrs.length = ac :=
  code_attr_reads_in_order 1 []
    ⟨[0, 1, 0, 2, 0, 0, 0, 1, 177, 0, 1, 0, 0, 0, 5, 0, 6, 0, 0, 0, 0], 0⟩
    ⟨[0, 1, 0, 2, 0, 0, 0, 1, 177, 0, 1, 0, 0, 0, 5, 0, 6, 0, 0, 0, 0], 21⟩
    (JVMCodeAttr.mk 1 2 1 [177] 1 [⟨0, 5, 6, 0⟩] 0 []) rfl
